import Mathlib

/-!
Shallow embedding of the fat32prfs write-interception layer
(src/file.c and src/proc_handler.c).

File names are lists of characters (the C code works on NUL-terminated
byte strings; none of the modelled names contains NUL, so `List.length`
is `strlen` and `List.getD i ' '` is in-bounds indexing everywhere the C
code indexes).  File contents are lists of bytes modelled as `List Nat`.
The host store is an association list from names to contents.
-/

abbrev FName := List Char

abbrev FS := List (FName × List Nat)

def fsLookup : FS → FName → Option (List Nat)
  | [], _ => none
  | (n, c) :: rest, m => if n = m then some c else fsLookup rest m

def fsStore : FS → FName → List Nat → FS
  | [], m, c => [(m, c)]
  | (n, d) :: rest, m, c =>
      if n = m then (m, c) :: rest else (n, d) :: fsStore rest m c

/-- `struct timespec64` as filled in by `ktime_get_real_ts64`: a second
count and a nanosecond count (the kernel keeps `0 ≤ tv_nsec < 10^9`;
claims that rely on it carry it as a hypothesis). -/
structure Timespec64 where
  tv_sec : Nat
  tv_nsec : Nat

/-- The per-open request descriptor: the leaf name (`d_iname`), write
intent (`file_readwrite filp = 1`, i.e. `f_flags & 3 > 0`) and the
just-created flag (`file_justcreated filp = 1`, the bit `vfat_create`
sets in `f_mode`). -/
structure OpenReq where
  name : FName
  wantsWrite : Bool
  justCreated : Bool

/-! ### Decimal formatting (the snprintf calls of create_backup_filename_trailing) -/

/-- The ASCII digit of `n % 10`. -/
def digitChar (n : Nat) : Char := Char.ofNat (48 + n % 10)

/-- The `w` low-order decimal digits of `n`, most significant first
(zero padded on the left whenever `n < 10^w`). -/
def padDigits : Nat → Nat → List Char
  | 0, _ => []
  | w + 1, n => padDigits w (n / 10) ++ [digitChar n]

/-- Fuel-driven digit count; `numDigitsAux (n+1) n` terminates because the
argument drops by a factor of ten each step. -/
def numDigitsAux : Nat → Nat → Nat
  | 0, _ => 0
  | fuel + 1, n => if n < 10 then 1 else numDigitsAux fuel (n / 10) + 1

/-- How many characters `%llu` prints for `n`. -/
def numDigits (n : Nat) : Nat := numDigitsAux (n + 1) n

/-- Output of `snprintf(_, cap+1, "%0w llu", n)` before the buffer cap is
applied: `%0w` pads to minimum width `w`, and a wider number prints all of
its digits. -/
def fmtU (w n : Nat) : List Char := padDigits (max w (numDigits n)) n

/-! ### filename_backup (src/file.c:302-314) -/

/-- The digit test of the loop body: `fname[i] < '0'` and `fname[i] > '9'`
each return 0. -/
def char_is_digit (c : Char) : Bool :=
  if c < '0' then false
  else if '9' < c then false
  else true

/-- The `for (s_idx = i; s_idx < i + k; s_idx++)` digit loop with its early
returns. -/
def digits_in_range (fname : FName) : Nat → Nat → Bool
  | _, 0 => true
  | i, k + 1 =>
      if char_is_digit (fname.getD i ' ') then digits_in_range fname (i + 1) k
      else false

/-- `filename_backup` (src/file.c:302): 1 iff the name starts with
`_` + 13 digits + `_`. -/
def filename_backup (fname : FName) : Bool :=
  if fname.length < 15 then false
  else if fname.getD 0 ' ' ≠ '_' then false
  else if fname.getD 14 ' ' ≠ '_' then false
  else digits_in_range fname 1 13

/-! ### create_backup_filename_trailing (src/file.c:319-342)

`stmp1` is `snprintf(stmp1, 16, "%015llu", now.tv_sec)`: the formatted
seconds truncated to the first 15 characters.  `stmp2` is
`snprintf(stmp2, 10, "%09lu", now.tv_nsec)`: the formatted nanoseconds
truncated to 9 characters.  The result is `_`, `stmp1[5..14]`,
`stmp2[0..2]`, `_` (15 characters, which fit the 16-byte target). -/

def create_backup_filename_trailing (now : Timespec64) : FName :=
  ('_' :: ((((fmtU 15 now.tv_sec).take 15).drop 5).take 10 ++
           ((fmtU 9 now.tv_nsec).take 9).take 3)) ++ ['_']

/-- `fn2` of prfs_make_backup (src/file.c:354-355):
`snprintf(fn2, 260, "%s%s", tme, fname)`, so the concatenation truncated
to the 259 characters the buffer can hold. -/
def make_backup_fn2 (now : Timespec64) (fname : FName) : FName :=
  (create_backup_filename_trailing now ++ fname).take 259

/-- Modelled from the spec (section 4.2), for comparison with the code:
the backup name as the specification words it — an underscore, the
low-order 10 decimal digits of the second count zero-padded to 10,
the 3 most-significant digits of the 9-digit zero-padded nanosecond
count, an underscore, then the original name verbatim. -/
def synthesizeBackupName_spec (s n : Nat) (orig : FName) : FName :=
  (('_' :: (padDigits 10 (s % 10 ^ 10) ++ padDigits 3 (n / 10 ^ 6))) ++ ['_']) ++ orig

/-! ### prfs_make_backup (src/file.c:348-380)

`filp_open(fname, O_RDONLY)` fails iff the source name is absent.
`filp_open(fn2, O_CREAT | O_RDWR, 0644)` — note: no `O_EXCL`, no
`O_TRUNC` — creates the destination when absent and otherwise opens the
existing file as is.  `vfs_copy_file_range(src, 0, dst, 0, size(src), 0)`
transfers some environment-determined number of bytes (`copied` below;
the C code discards the return value), overwriting the destination from
offset 0 and leaving any trailing old bytes in place.  The function then
closes both files and returns 0 unconditionally. -/

def prfs_make_backup (now : Timespec64) (fname : FName) (copied : Nat)
    (fs : FS) : Int × FS :=
  match fsLookup fs fname with
  | none => (-1, fs)
  | some src =>
      let fn2 := make_backup_fn2 now fname
      let dst0 := (fsLookup fs fn2).getD []
      let n := min copied src.length
      (0, fsStore fs fn2 (src.take n ++ dst0.drop n))

/-! ### Mode store (src/proc_handler.c) -/

/-- `get_proc_prfs_mode` (src/proc_handler.c:19): returns the cell. -/
def get_proc_prfs_mode (proc_prfs_mode : Int) : Int := proc_prfs_mode

/-- `prfsproc_write` (src/proc_handler.c:26) after `sscanf` parsed the
integer `v` from the user buffer: the cell is assigned `v` with no range
check, and the call returns the positive byte count (success, modelled as
`true`).  Result: (new cell value, call reported success). -/
def prfsproc_write (proc_prfs_mode v : Int) : Int × Bool :=
  (v, true)

/-- `get_prfs_mode` (src/file.c:383-414): reads the cell, then clamps
negative values and values above 2 to 1 (ReadOnly). -/
def get_prfs_mode (proc_prfs_mode : Int) : Int :=
  let m := get_proc_prfs_mode proc_prfs_mode
  let m1 := if m < 0 then 1 else m
  if m1 > 2 then 1 else m1

/-! ### prfs_file_open (src/file.c:417-526)

The switch on the mode read through `get_prfs_mode`.  A `return -1`
denies the open; reaching the end of the switch proceeds to
`generic_file_open`, modelled as success (result 0).  The file-system
state only changes on the Permissive-mode backup path. -/

def prfs_open_switch (prfs_mode : Int) (req : OpenReq) (now : Timespec64)
    (copied : Nat) (fs : FS) : Int × FS :=
  if prfs_mode = 0 then
    if req.wantsWrite then
      if filename_backup req.name then
        if req.justCreated = false then (-1, fs) else (0, fs)
      else if req.justCreated then (0, fs)
      else if (prfs_make_backup now req.name copied fs).1 = -1 then
        (-1, (prfs_make_backup now req.name copied fs).2)
      else (0, (prfs_make_backup now req.name copied fs).2)
    else (0, fs)
  else if prfs_mode = 1 then
    if req.wantsWrite then (-1, fs) else (0, fs)
  else if prfs_mode = 2 then
    if req.wantsWrite then
      if filename_backup req.name = false then (-1, fs) else (0, fs)
    else (0, fs)
  else (-1, fs)

def prfs_file_open (proc_prfs_mode : Int) (req : OpenReq) (now : Timespec64)
    (copied : Nat) (fs : FS) : Int × FS :=
  prfs_open_switch (get_prfs_mode proc_prfs_mode) req now copied fs

/-! ### Concrete inputs used by closed statements -/

def now0 : Timespec64 := ⟨0, 0⟩

def srcA : FName := ['a']

/-- The destination `prfs_make_backup` synthesizes for `srcA` at `now0`,
namely `_0000000000000_a`. -/
def tgtA : FName := make_backup_fn2 now0 srcA

/-- A concrete well-formed backup name, `_0000000000000_a`. -/
def bname0 : FName :=
  ['_', '0', '0', '0', '0', '0', '0', '0', '0', '0', '0', '0', '0', '0', '_', 'a']

/-! ### Arithmetic facts about the decimal formatting -/

theorem padDigits_length (w : Nat) : ∀ n, (padDigits w n).length = w := by
  induction w with
  | zero => intro n; rfl
  | succ w ih => intro n; simp [padDigits, ih]

theorem padDigits_succ (w : Nat) : ∀ n,
    padDigits (w + 1) n = digitChar (n / 10 ^ w) :: padDigits w n := by
  induction w with
  | zero => intro n; simp [padDigits]
  | succ w ih =>
    intro n
    calc padDigits (w + 2) n = padDigits (w + 1) (n / 10) ++ [digitChar n] := rfl
      _ = (digitChar (n / 10 / 10 ^ w) :: padDigits w (n / 10)) ++ [digitChar n] := by
          rw [ih]
      _ = digitChar (n / 10 / 10 ^ w) :: padDigits (w + 1) n := rfl
      _ = digitChar (n / 10 ^ (w + 1)) :: padDigits (w + 1) n := by
          rw [Nat.div_div_eq_div_mul, ← pow_succ']

theorem padDigits_append (a b n : Nat) :
    padDigits (a + b) n = padDigits a (n / 10 ^ b) ++ padDigits b n := by
  induction a with
  | zero => simp [padDigits]
  | succ a ih =>
    have h : a + 1 + b = (a + b) + 1 := by omega
    rw [h, padDigits_succ, ih, padDigits_succ, List.cons_append,
      Nat.div_div_eq_div_mul, ← pow_add, Nat.add_comm b a]

theorem padDigits_mod (w : Nat) : ∀ n, padDigits w (n % 10 ^ w) = padDigits w n := by
  induction w with
  | zero => intro n; rfl
  | succ w ih =>
    intro n
    show padDigits w (n % 10 ^ (w + 1) / 10) ++ [digitChar (n % 10 ^ (w + 1))]
       = padDigits w (n / 10) ++ [digitChar n]
    have hd : (10 : Nat) ∣ 10 ^ (w + 1) := dvd_pow_self 10 (Nat.succ_ne_zero w)
    have h1 : n % 10 ^ (w + 1) / 10 = n / 10 % 10 ^ w := by
      rw [pow_succ']
      exact Nat.mod_mul_right_div_self n 10 (10 ^ w)
    have h2 : digitChar (n % 10 ^ (w + 1)) = digitChar n := by
      unfold digitChar
      rw [Nat.mod_mod_of_dvd n hd]
    rw [h1, h2, ih]

theorem numDigitsAux_le (fuel : Nat) : ∀ n w, n < fuel → 1 ≤ w → n < 10 ^ w →
    numDigitsAux fuel n ≤ w := by
  induction fuel with
  | zero => intro n w h; omega
  | succ fuel ih =>
    intro n w hf hw hpow
    show (if n < 10 then 1 else numDigitsAux fuel (n / 10) + 1) ≤ w
    by_cases h10 : n < 10
    · rw [if_pos h10]; omega
    · rw [if_neg h10]
      obtain ⟨w', rfl⟩ : ∃ w', w = w' + 1 := ⟨w - 1, by omega⟩
      have hw' : 1 ≤ w' := by
        by_contra hc
        have : w' = 0 := by omega
        subst this
        simp [pow_one] at hpow
        omega
      have hfuel : n / 10 < fuel := by
        have := Nat.div_lt_self (show 0 < n by omega) (show 1 < 10 by norm_num)
        omega
      have hdiv : n / 10 < 10 ^ w' := by
        rw [Nat.div_lt_iff_lt_mul (show 0 < 10 by norm_num)]
        calc n < 10 ^ (w' + 1) := hpow
          _ = 10 ^ w' * 10 := by rw [pow_succ]
      have := ih (n / 10) w' hfuel hw' hdiv
      omega

theorem numDigits_le (n w : Nat) (hw : 1 ≤ w) (h : n < 10 ^ w) : numDigits n ≤ w :=
  numDigitsAux_le (n + 1) n w (Nat.lt_succ_self n) hw h

theorem fmtU_of_lt (w n : Nat) (hw : 1 ≤ w) (h : n < 10 ^ w) :
    fmtU w n = padDigits w n := by
  unfold fmtU
  rw [Nat.max_eq_left (numDigits_le n w hw h)]

theorem padDigits_take (w n : Nat) : (padDigits w n).take w = padDigits w n :=
  List.take_of_length_le (le_of_eq (padDigits_length w n))

/-! ### Claim C9: backup-name synthesis -/

/-- C9 (amended): for a second count below 10^15 and an original name of at
most 244 characters, the synthesized destination name is exactly the form
the spec describes: an underscore, the low-order 10 decimal digits of the
second count (zero-padded), the 3 most-significant digits of the 9-digit
zero-padded nanosecond count (milliseconds truncated toward zero), an
underscore, then the original name verbatim. -/
theorem backup_name_synthesis (s n : Nat) (orig : FName)
    (hn : n < 10 ^ 9) (hs : s < 10 ^ 15) (hl : orig.length ≤ 244) :
    make_backup_fn2 ⟨s, n⟩ orig = synthesizeBackupName_spec s n orig := by
  have h1 : (((fmtU 15 s).take 15).drop 5).take 10 = padDigits 10 (s % 10 ^ 10) := by
    rw [fmtU_of_lt 15 s (by norm_num) hs, padDigits_take,
      show (15 : Nat) = 5 + 10 by norm_num, padDigits_append 5 10 s,
      List.drop_left' (padDigits_length 5 (s / 10 ^ 10)), padDigits_take]
    exact (padDigits_mod 10 s).symm
  have h2 : ((fmtU 9 n).take 9).take 3 = padDigits 3 (n / 10 ^ 6) := by
    rw [fmtU_of_lt 9 n (by norm_num) hn, padDigits_take,
      show (9 : Nat) = 3 + 6 by norm_num, padDigits_append 3 6 n,
      List.take_left' (padDigits_length 3 (n / 10 ^ 6))]
  dsimp only [make_backup_fn2, create_backup_filename_trailing,
    synthesizeBackupName_spec]
  rw [h1, h2]
  apply List.take_of_length_le
  simp only [List.length_append, List.length_cons, List.length_nil,
    padDigits_length]
  omega

/-- C9 witness: a concrete in-range timestamp where the synthesized name is
the spec's form. -/
theorem backup_name_synthesis_witness :
    make_backup_fn2 ⟨1700000000, 123456789⟩ ['a'] =
      synthesizeBackupName_spec 1700000000 123456789 ['a'] :=
  backup_name_synthesis 1700000000 123456789 ['a'] (by decide) (by decide)
    (by decide)

/-- C9 counterexample: at second count 10^15 + 1 the 16-byte stmp1 buffer
truncates the 16-digit print, keeping the high-order digits, so the body is
not the low-order 10 decimal digits of the second count: the code yields
digits 0000000000 where the claim requires 0000000001. -/
theorem backup_name_trunc_cex :
    make_backup_fn2 ⟨10 ^ 15 + 1, 0⟩ ['a'] ≠
      synthesizeBackupName_spec (10 ^ 15 + 1) 0 ['a'] := by decide

/-! ### Claim C8: the backup-name predicate -/

theorem char_is_digit_iff (c : Char) :
    char_is_digit c = true ↔ ('0' ≤ c ∧ c ≤ '9') := by
  unfold char_is_digit
  by_cases h1 : c < '0'
  · rw [if_pos h1]
    simp [not_le.mpr h1]
  · rw [if_neg h1]
    by_cases h2 : '9' < c
    · rw [if_pos h2]
      simp [not_le.mpr h2]
    · rw [if_neg h2]
      simp [not_lt.mp h1, not_lt.mp h2]

theorem digits_in_range_iff (fname : FName) (k : Nat) : ∀ i,
    digits_in_range fname i k = true ↔
      ∀ j, i ≤ j → j < i + k → char_is_digit (fname.getD j ' ') = true := by
  induction k with
  | zero =>
    intro i
    simp only [digits_in_range, true_iff]
    intro j h1 h2
    omega
  | succ k ih =>
    intro i
    show (if char_is_digit (fname.getD i ' ') then digits_in_range fname (i + 1) k
          else false) = true ↔ _
    by_cases hc : char_is_digit (fname.getD i ' ') = true
    · rw [if_pos hc, ih (i + 1)]
      constructor
      · intro h j hj1 hj2
        rcases Nat.eq_or_lt_of_le hj1 with rfl | hlt
        · exact hc
        · exact h j hlt (by omega)
      · intro h j hj1 hj2
        exact h j (by omega) (by omega)
    · rw [if_neg hc]
      constructor
      · intro h
        exact (Bool.false_ne_true h).elim
      · intro h
        exact absurd (h i (le_refl i) (by omega)) hc

/-- C8: `filename_backup` returns true for exactly the strings of length at
least 15 whose character 0 is an underscore, whose character 14 is an
underscore, and whose characters 1 through 13 are all decimal digits. -/
theorem filename_backup_characterization (fname : FName) :
    filename_backup fname = true ↔
      (15 ≤ fname.length ∧ fname.getD 0 ' ' = '_' ∧ fname.getD 14 ' ' = '_' ∧
        ∀ i, 1 ≤ i → i ≤ 13 → '0' ≤ fname.getD i ' ' ∧ fname.getD i ' ' ≤ '9') := by
  unfold filename_backup
  by_cases hlen : fname.length < 15
  · rw [if_pos hlen]
    simp only [Bool.false_eq_true, false_iff]
    rintro ⟨h, -⟩
    omega
  · rw [if_neg hlen]
    by_cases h0 : fname.getD 0 ' ' = '_'
    · rw [if_neg (not_not_intro h0)]
      by_cases h14 : fname.getD 14 ' ' = '_'
      · rw [if_neg (not_not_intro h14), digits_in_range_iff]
        constructor
        · intro h
          refine ⟨by omega, h0, h14, ?_⟩
          intro i h1 h2
          exact (char_is_digit_iff _).mp (h i h1 (by omega))
        · rintro ⟨-, -, -, h⟩
          intro j h1 h2
          exact (char_is_digit_iff _).mpr (h j h1 (by omega))
      · rw [if_pos h14]
        simp only [Bool.false_eq_true, false_iff]
        rintro ⟨-, -, h, -⟩
        exact h14 h
    · rw [if_pos h0]
      simp only [Bool.false_eq_true, false_iff]
      rintro ⟨-, h, -, -⟩
      exact h0 h

/-! ### Decision-engine claims -/

theorem prfs_make_backup_fst (now : Timespec64) (fname : FName) (copied : Nat)
    (fs : FS) :
    (prfs_make_backup now fname copied fs).1 = 0 ∨
      (prfs_make_backup now fname copied fs).1 = -1 := by
  unfold prfs_make_backup
  cases fsLookup fs fname <;> simp

/-- C1: in Permissive mode (stored mode 0), a write-intent open of a
pre-existing non-backup name runs the Backup Executor on that name and is
permitted exactly when that call succeeds (its state change kept), denied
when it fails; a just-created non-backup name is permitted with no backup
made (the store is unchanged). -/
theorem permissive_write_backup_gate (req : OpenReq) (now : Timespec64)
    (copied : Nat) (fs : FS)
    (hw : req.wantsWrite = true) (hnb : filename_backup req.name = false) :
    (req.justCreated = false →
      prfs_file_open 0 req now copied fs =
        (if (prfs_make_backup now req.name copied fs).1 = 0 then 0 else -1,
         (prfs_make_backup now req.name copied fs).2)) ∧
    (req.justCreated = true → prfs_file_open 0 req now copied fs = (0, fs)) := by
  constructor
  · intro hjc
    simp only [prfs_file_open, prfs_open_switch, get_prfs_mode,
      get_proc_prfs_mode, hw, hnb, hjc]
    norm_num
    rcases prfs_make_backup_fst now req.name copied fs with h | h <;>
      simp [h]
  · intro hjc
    simp only [prfs_file_open, prfs_open_switch, get_prfs_mode,
      get_proc_prfs_mode, hw, hnb, hjc]
    norm_num

/-- C1 witness: a concrete Permissive-mode write open of the pre-existing
non-backup file named r. -/
theorem permissive_write_backup_gate_witness :
    prfs_file_open 0 ⟨['r'], true, false⟩ now0 9 [(['r'], [5])] =
      (if (prfs_make_backup now0 ['r'] 9 [(['r'], [5])]).1 = 0 then 0 else -1,
       (prfs_make_backup now0 ['r'] 9 [(['r'], [5])]).2) :=
  (permissive_write_backup_gate ⟨['r'], true, false⟩ now0 9 [(['r'], [5])]
    rfl (by decide)).1 rfl

/-- C2 (amended): in Permissive mode, a write-intent open of a backup name
the open did not itself create is denied with the store untouched (WORM);
in BackupOnly mode the code instead allows every write to a backup name. -/
theorem permissive_worm (req : OpenReq) (now : Timespec64) (copied : Nat)
    (fs : FS) (hb : filename_backup req.name = true)
    (hjc : req.justCreated = false) (hw : req.wantsWrite = true) :
    prfs_file_open 0 req now copied fs = (-1, fs) := by
  simp only [prfs_file_open, prfs_open_switch, get_prfs_mode,
    get_proc_prfs_mode, hb, hjc, hw]
  norm_num

/-- C2 witness: a concrete Permissive-mode write open of the pre-existing
backup artifact. -/
theorem permissive_worm_witness :
    prfs_file_open 0 ⟨bname0, true, false⟩ now0 0 [] = (-1, []) :=
  permissive_worm ⟨bname0, true, false⟩ now0 0 [] (by decide) rfl rfl

/-- C2 counterexample: in BackupOnly mode (stored mode 2), a write-intent
open of the existing backup artifact `_0000000000000_a` (justCreated
false) is permitted, not denied, so the claimed BackupOnly-mode WORM
denial does not hold. -/
theorem backuponly_worm_cex :
    filename_backup bname0 = true ∧
    (prfs_file_open 2 ⟨bname0, true, false⟩ now0 0 []).1 = 0 ∧
    (prfs_file_open 2 ⟨bname0, true, false⟩ now0 0 []).1 ≠ -1 := by decide

/-- C6: in ReadOnly mode (stored mode 1) every write-intent open is denied
and every read-only open is allowed, regardless of the name and of the
justCreated flag. -/
theorem readonly_mode_decision (req : OpenReq) (now : Timespec64)
    (copied : Nat) (fs : FS) :
    (req.wantsWrite = true → prfs_file_open 1 req now copied fs = (-1, fs)) ∧
    (req.wantsWrite = false → prfs_file_open 1 req now copied fs = (0, fs)) := by
  constructor <;> intro hw <;>
    simp [prfs_file_open, prfs_open_switch, get_prfs_mode, get_proc_prfs_mode,
      hw]

/-- C7: in BackupOnly mode (stored mode 2) an open is denied exactly when
it has write intent on a non-backup name; write intent on a backup name
and every read-only open are allowed. -/
theorem backuponly_mode_decision (req : OpenReq) (now : Timespec64)
    (copied : Nat) (fs : FS) :
    ((prfs_file_open 2 req now copied fs).1 = -1 ↔
      (req.wantsWrite = true ∧ filename_backup req.name = false)) ∧
    (req.wantsWrite = true → filename_backup req.name = true →
      prfs_file_open 2 req now copied fs = (0, fs)) ∧
    (req.wantsWrite = false → prfs_file_open 2 req now copied fs = (0, fs)) := by
  refine ⟨?_, ?_, ?_⟩
  · cases hw : req.wantsWrite <;> cases hb : filename_backup req.name <;>
      simp [prfs_file_open, prfs_open_switch, get_prfs_mode,
        get_proc_prfs_mode, hw, hb]
  · intro hw hb
    simp [prfs_file_open, prfs_open_switch, get_prfs_mode, get_proc_prfs_mode,
      hw, hb]
  · intro hw
    simp [prfs_file_open, prfs_open_switch, get_prfs_mode, get_proc_prfs_mode,
      hw]

/-- C10: whatever integer the mode cell holds, the mode the open path reads
is 0, 1 or 2; an out-of-range cell reads as 1 (ReadOnly), and the whole
open decision then behaves exactly as with stored mode 1 — the switch's
invalid-mode branch can never run. -/
theorem mode_read_clamped (stored : Int) :
    (get_prfs_mode stored = 0 ∨ get_prfs_mode stored = 1 ∨
      get_prfs_mode stored = 2) ∧
    ((stored < 0 ∨ 2 < stored) → get_prfs_mode stored = 1) ∧
    (∀ req now copied fs, (stored < 0 ∨ 2 < stored) →
      prfs_file_open stored req now copied fs =
        prfs_file_open 1 req now copied fs) := by
  refine ⟨?_, ?_, ?_⟩
  · simp only [get_prfs_mode, get_proc_prfs_mode]
    split_ifs <;> omega
  · intro h
    simp only [get_prfs_mode, get_proc_prfs_mode]
    split_ifs <;> omega
  · intro req now copied fs h
    unfold prfs_file_open
    have h1 : get_prfs_mode stored = 1 := by
      simp only [get_prfs_mode, get_proc_prfs_mode]
      split_ifs <;> omega
    have h2 : get_prfs_mode 1 = 1 := by decide
    rw [h1, h2]

/-! ### Claims C3 and C4: the Backup Executor's failure handling -/

/-- C3 (code evaluated at the failing input): the destination is opened
with O_CREAT | O_RDWR and no O_EXCL, so when the synthesized backup name
(here `_0000000000000_a`, holding bytes 1,2,3) already exists, the call
does not fail — it returns 0 and overwrites the existing backup's leading
bytes with the source's (leaving 7,2,3), contradicting the exclusive-create
claim. -/
theorem make_backup_overwrites_existing_destination :
    (prfs_make_backup now0 srcA 99 [(tgtA, [1, 2, 3]), (srcA, [7])]).1 = 0 ∧
    fsLookup (prfs_make_backup now0 srcA 99 [(tgtA, [1, 2, 3]), (srcA, [7])]).2
        tgtA = some [7, 2, 3] := by decide

/-- C4 (code evaluated at the failing input): the result of
vfs_copy_file_range is discarded, so when only 1 of the source's 3 bytes is
transferred the call still returns 0 (success) and the 1-byte partial
destination stays in the store, contradicting the cleanup-on-failure
claim. -/
theorem make_backup_partial_copy_left_visible :
    (prfs_make_backup now0 srcA 1 [(srcA, [1, 2, 3])]).1 = 0 ∧
    fsLookup (prfs_make_backup now0 srcA 1 [(srcA, [1, 2, 3])]).2 tgtA =
      some [1] := by decide

/-! ### Claim C5: the control-plane mode channel -/

/-- C5 (amended): every successfully parsed integer written to the mode
channel is stored unconditionally and a subsequent get returns it; the
write path performs no range validation (out-of-range values are only
clamped to ReadOnly later, at decision read time, by get_prfs_mode). -/
theorem mode_write_roundtrip_unvalidated (stored v : Int) :
    get_proc_prfs_mode (prfsproc_write stored v).1 = v ∧
    (prfsproc_write stored v).2 = true :=
  ⟨rfl, rfl⟩

/-- C5 counterexample: writing 5 (outside 0..2) to a cell holding 1 is not
rejected — the call reports success and the stored value becomes 5 instead
of staying 1. -/
theorem mode_write_out_of_range_accepted :
    ¬((5 : Int) = 0 ∨ (5 : Int) = 1 ∨ (5 : Int) = 2) ∧
    (prfsproc_write 1 5).1 = 5 ∧ (prfsproc_write 1 5).1 ≠ 1 ∧
    (prfsproc_write 1 5).2 = true := by decide
